import Mathlib

/-!
Shallow embedding of `src/languages/star-prnt.js` (class LanguageStarPrnt),
a command encoder translating printing intents into Star PRNT byte sequences.

Conventions of the embedding:
* JS arrays of byte values become `List Int` (JS pushes raw numbers, which
  may be negative where the source performs no validation, e.g. `height - 1`
  in `size`) or `List Nat` where every pushed value is a non-negative byte.
* The external `CodepageEncoder.encode(value, codepage)` collaborator (an npm
  dependency, not part of this repository) is abstracted by passing the list
  of 8-bit code units it returns as the `bytes` parameter of `barcode` and
  `qrcode`; all structural theorems are proved for every such list.
* JS `throw` becomes `Except String`; a thrown error carries the message.
* Optional JS parameters (tested with typeof x === undefined) become
  `Option` parameters; `none` is the omitted argument.
* JS numeric parameters are modelled as `Int` (the claims only exercise
  integer inputs); pixel channel values are `Nat` (Uint8ClampedArray).
-/

namespace StarPrnt

/-- The method named initialize in the source: fixed reset sequence
`return [0x1b, 0x40, 0x18]`. -/
def initPrinter : List Int := [0x1b, 0x40, 0x18]

/-- `font(type)`: value starts at 0x00, is set to 0x01 when type is the
string B and to 0x02 when type is the string C (two sequential ifs). -/
def font (type : String) : List Int :=
  let value : Int := 0x00
  let value := if type = "B" then 0x01 else value
  let value := if type = "C" then 0x02 else value
  [0x1b, 0x1e, 0x46, value]

/-- `align(value)`: center maps to 0x01, right to 0x02, anything else 0x00. -/
def align (value : String) : List Int :=
  let a : Int := if value = "center" then 0x01 else if value = "right" then 0x02 else 0x00
  [0x1b, 0x1d, 0x61, a]

/-- The symbology lookup table of `barcode` (14 entries, in source order). -/
def symbologies : List (String × Nat) :=
  [("upce", 0x00),
   ("upca", 0x01),
   ("ean8", 0x02),
   ("ean13", 0x03),
   ("code39", 0x04),
   ("itf", 0x05),
   ("code128", 0x06),
   ("code93", 0x07),
   ("nw-7", 0x08),
   ("gs1-128", 0x09),
   ("gs1-databar-omni", 0x0a),
   ("gs1-databar-truncated", 0x0b),
   ("gs1-databar-limited", 0x0c),
   ("gs1-databar-expanded", 0x0d)]

/-- `barcode(value, symbology, height)`. `bytes` stands for
`CodepageEncoder.encode(value, ascii)`, the external encoder output.
Looks up the symbology (throwing when absent), then pushes
`0x1b, 0x62, code, 0x01, 0x03, height, ...bytes, 0x1e`. -/
def barcode (bytes : List Nat) (symbology : String) (height : Int) :
    Except String (List Int) :=
  match symbologies.lookup symbology with
  | none => Except.error "Symbology not supported by printer"
  | some code =>
      Except.ok ([0x1b, 0x62, (code : Int), 0x01, 0x03, height]
        ++ bytes.map (fun b => (b : Int)) ++ [0x1e])

/-- The `size` argument of `qrcode`: a JS value that is either a number
(modelled as an integer) or a value of any other type (the source checks
`typeof size !== 'number'`). -/
inductive QRSize
  | num (n : Int)
  | nonNum
deriving DecidableEq

/-- The error-level lookup table of `qrcode`. -/
def errorlevels : List (String × Nat) :=
  [("l", 0x00), ("m", 0x01), ("q", 0x02), ("h", 0x03)]

/-- `qrcode(value, model, size, errorlevel)`. `bytes` stands for
`CodepageEncoder.encode(value, iso8859-1)`. Mirrors the source control
flow: default model 2 then membership check in the models table
(keys 1 and 2), default size 6 then number-type and range checks,
default error level m then table lookup, then the store-data sub-command
with a little-endian 16-bit length prefix and the print trigger. -/
def qrcode (bytes : List Nat) (model : Option Int) (size : Option QRSize)
    (errorlevel : Option String) : Except String (List Nat) :=
  let model := model.getD 2
  if model = 1 ∨ model = 2 then
    let modelCmd : List Nat :=
      [0x1b, 0x1d, 0x79, 0x53, 0x30, if model = 1 then 0x01 else 0x02]
    let size := size.getD (QRSize.num 6)
    match size with
    | QRSize.nonNum => Except.error "Size must be a number"
    | QRSize.num n =>
      if n < 1 ∨ n > 8 then
        Except.error "Size must be between 1 and 8"
      else
        let sizeCmd : List Nat := [0x1b, 0x1d, 0x79, 0x53, 0x32, n.toNat]
        let errorlevel := errorlevel.getD "m"
        match errorlevels.lookup errorlevel with
        | none => Except.error "Error level must be l, m, q or h"
        | some c =>
          let elCmd : List Nat := [0x1b, 0x1d, 0x79, 0x53, 0x31, c]
          let length := bytes.length
          let dataCmd : List Nat :=
            [0x1b, 0x1d, 0x79, 0x44, 0x31, 0x00,
             length &&& 0xff, (length >>> 8) &&& 0xff] ++ bytes
          Except.ok (modelCmd ++ sizeCmd ++ elCmd ++ dataCmd
            ++ [0x1b, 0x1d, 0x79, 0x50])
  else
    Except.error "Model must be 1 or 2"

/-- The pixel sampler of `image`:
`(x, y) => typeof image.data[((width * y) + x) * 4] === undefined ||
image.data[((width * y) + x) * 4] > 0 ? 0 : 1`.
An out-of-bounds read yields `none` (JS undefined) and hence 0. -/
def getPixel (data : List Nat) (width x y : Nat) : Nat :=
  match data.get? (((width * y) + x) * 4) with
  | none => 0
  | some v => if v > 0 then 0 else 1

/-- One packed byte of a column: the source expression
`getPixel(x, y+0) << 7 | getPixel(x, y+1) << 6 | ... | getPixel(x, y+7)`,
used with base offsets y, y+8 and y+16 for bytes i, i+1 and i+2. -/
def packByte (data : List Nat) (width x y : Nat) : Nat :=
  (getPixel data width x y <<< 7) |||
  (getPixel data width x (y + 1) <<< 6) |||
  (getPixel data width x (y + 2) <<< 5) |||
  (getPixel data width x (y + 3) <<< 4) |||
  (getPixel data width x (y + 4) <<< 3) |||
  (getPixel data width x (y + 5) <<< 2) |||
  (getPixel data width x (y + 6) <<< 1) |||
  getPixel data width x (y + 7)

/-- One band sub-command of `image`, for the band whose top row is `y`:
`0x1b, 0x58, width & 0xff, (width >> 8) & 0xff, ...bytes, 0x0a, 0x0d`
where the buffer holds, for each column x, bytes `3x, 3x+1, 3x+2`. -/
def bandCommand (data : List Nat) (width y : Nat) : List Nat :=
  [0x1b, 0x58, width &&& 0xff, (width >>> 8) &&& 0xff]
  ++ (List.range width).flatMap (fun x =>
       [packByte data width x y,
        packByte data width x (y + 8),
        packByte data width x (y + 16)])
  ++ [0x0a, 0x0d]

/-- Iteration count of the band loop `for (let s = 0; s < height / 24; s++)`
over JS real division: zero when height is not positive, otherwise the
ceiling of height / 24. -/
def numBands (height : Int) : Nat :=
  if height ≤ 0 then 0 else (height.toNat + 23) / 24

/-- `image(image, width, height, mode)`: prologue `0x1b, 0x30`, one band
sub-command per loop iteration (band s starts at row 24 s), then the
terminating sub-command `0x1b, 0x7a, 0x01`. The mode argument is ignored
by the source. -/
def image (data : List Nat) (width : Nat) (height : Int) (mode : String) :
    List Nat :=
  [0x1b, 0x30]
  ++ (List.range (numBands height)).flatMap (fun s => bandCommand data width (s * 24))
  ++ [0x1b, 0x7a, 0x01]

/-- `cut(value)`: data 0x01 when value equals the string partial, else 0x00. -/
def cut (value : String) : List Int :=
  let data : Int := if value = "partial" then 0x01 else 0x00
  [0x1b, 0x64, data]

/-- `pulse(device, on, off)`: defaults (0, 200, 200); on and off are
`Math.min(127, Math.round(x / 10))`; for an integer x,
`Math.round(x / 10) = floor((x + 5) / 10)`, i.e. `(x + 5).fdiv 10`.
The final `x & 0xff` of the source is `Int.emod x 256`; the trailing byte
is 0x1a when device is truthy (nonzero) and 0x07 otherwise. The source
parameter names on and off are reserved words in Lean and appear here as
onTime and offTime. -/
def pulse (device onTime offTime : Option Int) : List Int :=
  let device := device.getD 0
  let onTime := onTime.getD 200
  let offTime := offTime.getD 200
  let onTime := min 127 ((onTime + 5).fdiv 10)
  let offTime := min 127 ((offTime + 5).fdiv 10)
  [0x1b, 0x07, onTime.emod 256, offTime.emod 256,
   if device = 0 then 0x07 else 0x1a]

/-- `bold(value)`: 0x45 when truthy, 0x46 otherwise. -/
def bold (value : Bool) : List Int :=
  let data : Int := if value then 0x45 else 0x46
  [0x1b, data]

/-- `underline(value)`: 0x01 when truthy, 0x00 otherwise. -/
def underline (value : Bool) : List Int :=
  let data : Int := if value then 0x01 else 0x00
  [0x1b, 0x2d, data]

/-- `italic(value)`: the protocol has no italic support; returns `[]`. -/
def italic (value : Bool) : List Int := []

/-- `invert(value)`: 0x34 when truthy, 0x35 otherwise. -/
def invert (value : Bool) : List Int :=
  let data : Int := if value then 0x34 else 0x35
  [0x1b, data]

/-- `size(width, height)`: `[0x1b, 0x69, height - 1, width - 1]`,
no validation of either parameter. -/
def size (width height : Int) : List Int :=
  [0x1b, 0x69, height - 1, width - 1]

/-- `codepage(value)`: direct passthrough of the codepage byte. -/
def codepage (value : Int) : List Int :=
  [0x1b, 0x1d, 0x74, value]

/-- `flush()`: fixed two paired sub-commands. -/
def flush : List Int :=
  [0x1b, 0x1d, 0x50, 0x30, 0x1b, 0x1d, 0x50, 0x31]

/-! Helper lemmas shared by the claim theorems. -/

/-- A sampled pixel is always the bit 0 or 1. -/
lemma getPixel_le_one (data : List Nat) (width x y : Nat) :
    getPixel data width x y = 0 ∨ getPixel data width x y = 1 := by
  unfold getPixel
  cases data.get? (((width * y) + x) * 4) with
  | none => exact Or.inl rfl
  | some v => by_cases hv : v > 0 <;> simp [hv]

/-- Evaluation of `qrcode` on any argument vector whose resolved model,
size and error level are valid. -/
lemma qrcode_valid_eq (bytes : List Nat) (model : Option Int)
    (sz : Option QRSize) (el : Option String) (n : Int) (c : Nat)
    (hm : model.getD 2 = 1 ∨ model.getD 2 = 2)
    (hs : sz.getD (QRSize.num 6) = QRSize.num n)
    (hn1 : 1 ≤ n) (hn8 : n ≤ 8)
    (he : errorlevels.lookup (el.getD "m") = some c) :
    qrcode bytes model sz el =
      Except.ok
        ([0x1b, 0x1d, 0x79, 0x53, 0x30, if model.getD 2 = 1 then 0x01 else 0x02]
         ++ [0x1b, 0x1d, 0x79, 0x53, 0x32, n.toNat]
         ++ [0x1b, 0x1d, 0x79, 0x53, 0x31, c]
         ++ ([0x1b, 0x1d, 0x79, 0x44, 0x31, 0x00,
              bytes.length &&& 0xff, (bytes.length >>> 8) &&& 0xff] ++ bytes)
         ++ [0x1b, 0x1d, 0x79, 0x50]) := by
  have hnr : ¬(n < 1 ∨ n > 8) := by omega
  simp only [qrcode, hs, he, if_pos hm, if_neg hnr]

/-- A value capped with `min 127` from a non-negative input is left
unchanged by the final reduction modulo 256. -/
lemma emod_min127 (x : Int) (hx : 0 ≤ x) :
    (min 127 x).emod 256 = min 127 x := by
  apply Int.emod_eq_of_lt
  · exact le_min (by norm_num) hx
  · exact lt_of_le_of_lt (min_le_left _ _) (by norm_num)

/-! Claim theorems. -/

/-- Claim C1, counterexample: at image width 1 with an empty pixel buffer,
the coordinate (0, 0) is out of bounds (the read yields none, the JS
undefined), yet the pixel is sampled as 0 (white), not as 1 (black) as the
claim states for out-of-bounds coordinates. -/
theorem getPixel_oob_cex :
    (([] : List Nat).get? (((1 * 0) + 0) * 4) = none) ∧
    getPixel [] 1 0 0 ≠ 1 := by
  decide

/-- Claim C1 as amended: a pixel at (x, y) is sampled as on (bit 1, black)
iff the coordinate lies inside the supplied pixel buffer and its color
channel value is 0; every out-of-bounds coordinate — including rows at or
beyond height in a final partial band when height is not a multiple of
24 — is sampled as 0 (white), not black. -/
theorem getPixel_on_iff :
    (∀ data width x y, getPixel data width x y = 1 ↔
        data.get? (((width * y) + x) * 4) = some 0) ∧
    (∀ (data : List Nat) (width height x y : Nat),
        data.length = width * height * 4 → height ≤ y →
        getPixel data width x y = 0) := by
  constructor
  · intro data width x y
    unfold getPixel
    cases h : data.get? (((width * y) + x) * 4) with
    | none => simp
    | some v =>
      by_cases hv : v > 0
      · simp only [if_pos hv]
        constructor
        · omega
        · intro hh
          exact absurd (Option.some.inj hh) (by omega)
      · simp only [if_neg hv]
        constructor
        · intro _
          exact congrArg some (by omega)
        · intro _
          trivial
  · intro data width height x y hlen hy
    have h1 : width * height ≤ width * y := Nat.mul_le_mul_left width hy
    have h2 : data.length ≤ ((width * y) + x) * 4 := by
      rw [hlen]
      calc width * height * 4 ≤ (width * y) * 4 := Nat.mul_le_mul_right 4 h1
        _ ≤ ((width * y) + x) * 4 := Nat.mul_le_mul_right 4 (Nat.le_add_right _ _)
    unfold getPixel
    rw [List.get?_eq_none.mpr h2]

/-- Witness for claim C1 as amended: with a 1 by 1 buffer of 4 channel
values, row 1 lies beyond the height and is sampled as 0. -/
theorem getPixel_on_iff_witness :
    getPixel (List.replicate 4 0) 1 0 1 = 0 :=
  getPixel_on_iff.2 (List.replicate 4 0) 1 1 0 1 (by decide) (by decide)

/-- Claim C8: size encodes the magnitudes as height minus one before width
minus one, the reverse of the parameter order, with no validation of
either parameter, and size 2 3 is exactly 0x1b 0x69 0x02 0x01. -/
theorem size_height_before_width :
    (∀ width height, size width height = [0x1b, 0x69, height - 1, width - 1]) ∧
    size 2 3 = [0x1b, 0x69, 2, 1] :=
  ⟨fun _ _ => rfl, by decide⟩

/-- Claim C9: every operation of the encoder is a pure function of its
arguments and the static lookup tables; calling any operation twice with
identical arguments yields byte-identical output. -/
theorem operations_deterministic :
    initPrinter = initPrinter ∧
    (∀ t, font t = font t) ∧
    (∀ v, align v = align v) ∧
    (∀ b s h, barcode b s h = barcode b s h) ∧
    (∀ b m s e, qrcode b m s e = qrcode b m s e) ∧
    (∀ d w h m, image d w h m = image d w h m) ∧
    (∀ v, cut v = cut v) ∧
    (∀ d a b, pulse d a b = pulse d a b) ∧
    (∀ v, bold v = bold v) ∧
    (∀ v, underline v = underline v) ∧
    (∀ v, italic v = italic v) ∧
    (∀ v, invert v = invert v) ∧
    (∀ w h, size w h = size w h) ∧
    (∀ v, codepage v = codepage v) ∧
    flush = flush :=
  ⟨rfl, fun _ => rfl, fun _ => rfl, fun _ _ _ => rfl, fun _ _ _ _ => rfl,
   fun _ _ _ _ => rfl, fun _ => rfl, fun _ _ _ => rfl, fun _ => rfl,
   fun _ => rfl, fun _ => rfl, fun _ => rfl, fun _ _ => rfl, fun _ => rfl,
   rfl⟩

/-- Claim C10: for every input the image output begins with the two-byte
prologue 0x1b 0x30 and ends with the terminating sub-command
0x1b 0x7a 0x01; when height is not positive the band loop runs zero times
and the output is exactly those five bytes. -/
theorem image_prologue_terminator :
    (∀ data width height mode, ∃ mid,
        image data width height mode =
          [0x1b, 0x30] ++ mid ++ [0x1b, 0x7a, 0x01]) ∧
    (∀ data width height mode, height ≤ 0 →
        image data width height mode = [0x1b, 0x30, 0x1b, 0x7a, 0x01]) := by
  constructor
  · intro data width height mode
    exact ⟨_, rfl⟩
  · intro data width height mode h
    simp [image, numBands, h]

/-- Witness for claim C10: a negative height yields exactly the five fixed
bytes. -/
theorem image_prologue_terminator_witness :
    image [] 5 (-3) "x" = [0x1b, 0x30, 0x1b, 0x7a, 0x01] :=
  image_prologue_terminator.2 [] 5 (-3) "x" (by decide)

/-- Claim C2: qrcode with model, size and errorlevel all omitted uses the
defaults model 2, size 6, errorlevel m, and for every valid combination of
inputs the output is the fixed five-stage sequence: model sub-command,
size sub-command, error-level sub-command, store-data sub-command whose
body is 0x00 followed by the little-endian 16-bit length of the encoded
value then the payload bytes, and the fixed print trigger, in exactly that
order regardless of which fields used defaults. -/
theorem qrcode_defaults_and_order :
    (∀ bytes, qrcode bytes none none none =
        Except.ok
          ([0x1b, 0x1d, 0x79, 0x53, 0x30, 0x02]
           ++ [0x1b, 0x1d, 0x79, 0x53, 0x32, 6]
           ++ [0x1b, 0x1d, 0x79, 0x53, 0x31, 0x01]
           ++ ([0x1b, 0x1d, 0x79, 0x44, 0x31, 0x00,
                bytes.length &&& 0xff, (bytes.length >>> 8) &&& 0xff] ++ bytes)
           ++ [0x1b, 0x1d, 0x79, 0x50])) ∧
    (∀ bytes model sz el n c,
        (model.getD 2 = 1 ∨ model.getD 2 = 2) →
        sz.getD (QRSize.num 6) = QRSize.num n → 1 ≤ n → n ≤ 8 →
        errorlevels.lookup (el.getD "m") = some c →
        qrcode bytes model sz el =
          Except.ok
            ([0x1b, 0x1d, 0x79, 0x53, 0x30,
              if model.getD 2 = 1 then 0x01 else 0x02]
             ++ [0x1b, 0x1d, 0x79, 0x53, 0x32, n.toNat]
             ++ [0x1b, 0x1d, 0x79, 0x53, 0x31, c]
             ++ ([0x1b, 0x1d, 0x79, 0x44, 0x31, 0x00,
                  bytes.length &&& 0xff, (bytes.length >>> 8) &&& 0xff] ++ bytes)
             ++ [0x1b, 0x1d, 0x79, 0x50])) := by
  constructor
  · intro bytes
    have h := qrcode_valid_eq bytes none none none 6 1 (Or.inr rfl) rfl
      (by norm_num) (by norm_num) rfl
    simpa using h
  · intro bytes model sz el n c hm hs h1 h8 he
    exact qrcode_valid_eq bytes model sz el n c hm hs h1 h8 he

/-- Witness for claim C2: an explicit valid argument vector, no defaults. -/
theorem qrcode_defaults_and_order_witness :
    qrcode [84, 69, 83, 84] (some 1) (some (QRSize.num 3)) (some "q") =
      Except.ok
        [0x1b, 0x1d, 0x79, 0x53, 0x30, 0x01,
         0x1b, 0x1d, 0x79, 0x53, 0x32, 3,
         0x1b, 0x1d, 0x79, 0x53, 0x31, 0x02,
         0x1b, 0x1d, 0x79, 0x44, 0x31, 0x00, 4, 0, 84, 69, 83, 84,
         0x1b, 0x1d, 0x79, 0x50] :=
  qrcode_defaults_and_order.2 [84, 69, 83, 84] (some 1) (some (QRSize.num 3))
    (some "q") 3 2 (by decide) rfl (by decide) (by decide) (by decide)

/-- Claim C3: the supported symbologies are exactly the closed set of 14
names, and for every supported symbology, every encoded value and every
height, the barcode output is the escape marker, the symbology code, the
two fixed framing bytes 0x01 0x03, the raw height byte, the encoded value
bytes, and the unconditional sentinel terminator 0x1e — also when the
encoded value is empty. -/
theorem barcode_structure :
    symbologies.map Prod.fst =
      ["upce", "upca", "ean8", "ean13", "code39", "itf", "code128", "code93",
       "nw-7", "gs1-128", "gs1-databar-omni", "gs1-databar-truncated",
       "gs1-databar-limited", "gs1-databar-expanded"] ∧
    (∀ bytes sym height c, symbologies.lookup sym = some c →
        barcode bytes sym height =
          Except.ok ([0x1b, 0x62, (c : Int), 0x01, 0x03, height]
            ++ bytes.map (fun b => (b : Int)) ++ [0x1e])) := by
  refine ⟨rfl, ?_⟩
  intro bytes sym height c h
  unfold barcode
  rw [h]

/-- Witness for claim C3: an empty encoded value still ends with the
sentinel terminator. -/
theorem barcode_structure_witness :
    barcode [] "upce" 50 = Except.ok [0x1b, 0x62, 0, 0x01, 0x03, 50, 0x1e] :=
  barcode_structure.2 [] "upce" 50 0 (by decide)

/-- Claim C4: qrcode returns a validation error and no bytes whenever a
supplied model is not 1 or 2, whenever a supplied size is non-numeric or
outside 1..8, or whenever a supplied error level is not one of l, m, q, h;
for every valid input combination it succeeds. -/
theorem qrcode_validation :
    (∀ bytes m sz el, m ≠ 1 → m ≠ 2 →
        ∃ msg, qrcode bytes (some m) sz el = Except.error msg) ∧
    (∀ bytes m el,
        ∃ msg, qrcode bytes m (some QRSize.nonNum) el = Except.error msg) ∧
    (∀ bytes m el n, n < 1 ∨ 8 < n →
        ∃ msg, qrcode bytes m (some (QRSize.num n)) el = Except.error msg) ∧
    (∀ bytes m sz s, errorlevels.lookup s = none →
        ∃ msg, qrcode bytes m sz (some s) = Except.error msg) ∧
    (∀ bytes m sz el n c,
        (m.getD 2 = 1 ∨ m.getD 2 = 2) →
        sz.getD (QRSize.num 6) = QRSize.num n → 1 ≤ n → n ≤ 8 →
        errorlevels.lookup (el.getD "m") = some c →
        ∃ out, qrcode bytes m sz el = Except.ok out) := by
  refine ⟨?_, ?_, ?_, ?_, ?_⟩
  · intro bytes m sz el h1 h2
    have hm : ¬((some m).getD 2 = 1 ∨ (some m).getD 2 = 2) := by
      simp [h1, h2]
    exact ⟨_, by simp only [qrcode]; rw [if_neg hm]⟩
  · intro bytes m el
    by_cases hm : m.getD 2 = 1 ∨ m.getD 2 = 2
    · exact ⟨_, by simp only [qrcode, Option.getD_some]; rw [if_pos hm]⟩
    · exact ⟨_, by simp only [qrcode]; rw [if_neg hm]⟩
  · intro bytes m el n hn
    by_cases hm : m.getD 2 = 1 ∨ m.getD 2 = 2
    · exact ⟨_, by
        simp only [qrcode, Option.getD_some]
        rw [if_pos hm, if_pos hn]⟩
    · exact ⟨_, by simp only [qrcode]; rw [if_neg hm]⟩
  · intro bytes m sz s hs
    by_cases hm : m.getD 2 = 1 ∨ m.getD 2 = 2
    · cases hsz : sz.getD (QRSize.num 6) with
      | nonNum => exact ⟨_, by simp only [qrcode, hsz]; rw [if_pos hm]⟩
      | num n =>
        by_cases hn : n < 1 ∨ n > 8
        · exact ⟨_, by
            simp only [qrcode, hsz]
            rw [if_pos hm, if_pos hn]⟩
        · exact ⟨_, by
            simp only [qrcode, hsz, Option.getD_some]
            rw [if_pos hm, if_neg hn, hs]⟩
    · exact ⟨_, by simp only [qrcode]; rw [if_neg hm]⟩
  · intro bytes m sz el n c hm hs h1 h8 he
    exact ⟨_, qrcode_valid_eq bytes m sz el n c hm hs h1 h8 he⟩

/-- Witness for claim C4: a supplied model of 3 is rejected. -/
theorem qrcode_validation_witness :
    ∃ msg, qrcode [] (some 3) none none = Except.error msg :=
  qrcode_validation.1 [] 3 none none (by decide) (by decide)

/-- Claim C5: for every symbology string outside the supported table the
barcode operation fails with the validation error and produces no bytes,
and for every symbology inside the table it succeeds for every encoded
value and every height — the lookup is the only validation performed. -/
theorem barcode_validation :
    (∀ bytes sym height, symbologies.lookup sym = none →
        barcode bytes sym height =
          Except.error "Symbology not supported by printer") ∧
    (∀ bytes sym height c, symbologies.lookup sym = some c →
        ∃ out, barcode bytes sym height = Except.ok out) := by
  constructor
  · intro bytes sym height h
    unfold barcode
    rw [h]
  · intro bytes sym height c h
    unfold barcode
    rw [h]
    exact ⟨_, rfl⟩

/-- Witness for claim C5: an unsupported symbology string is rejected. -/
theorem barcode_validation_witness :
    barcode [] "code11" 0 = Except.error "Symbology not supported by printer" :=
  barcode_validation.1 [] "code11" 0 (by decide)

/-- Claim C6: a 1 by 24 all-black buffer yields exactly one band
sub-command whose three packed column bytes are all 0xff; in general each
band sub-command is the escape marker, the column-data opcode, a
little-endian 16-bit width, then for each column exactly 3 bytes packing
the 24 band rows with the most significant bit of byte 0 the topmost row
(byte 0 rows 0..7, byte 1 rows 8..15, byte 2 rows 16..23), followed by the
0x0a 0x0d control pair. -/
theorem image_band_packing :
    image ((List.replicate 24 [0, 0, 0, 255]).flatten) 1 24 "" =
      [0x1b, 0x30, 0x1b, 0x58, 0x01, 0x00, 0xff, 0xff, 0xff, 0x0a, 0x0d,
       0x1b, 0x7a, 0x01] ∧
    (∀ data width y, bandCommand data width y =
        [0x1b, 0x58, width &&& 0xff, (width >>> 8) &&& 0xff]
        ++ (List.range width).flatMap (fun x =>
             [packByte data width x y, packByte data width x (y + 8),
              packByte data width x (y + 16)])
        ++ [0x0a, 0x0d]) ∧
    (∀ data width x y, packByte data width x y =
        128 * getPixel data width x y
        + 64 * getPixel data width x (y + 1)
        + 32 * getPixel data width x (y + 2)
        + 16 * getPixel data width x (y + 3)
        + 8 * getPixel data width x (y + 4)
        + 4 * getPixel data width x (y + 5)
        + 2 * getPixel data width x (y + 6)
        + getPixel data width x (y + 7)) := by
  refine ⟨by decide, fun _ _ _ => rfl, ?_⟩
  intro data width x y
  rcases getPixel_le_one data width x y with h0 | h0 <;>
    rcases getPixel_le_one data width x (y + 1) with h1 | h1 <;>
    rcases getPixel_le_one data width x (y + 2) with h2 | h2 <;>
    rcases getPixel_le_one data width x (y + 3) with h3 | h3 <;>
    rcases getPixel_le_one data width x (y + 4) with h4 | h4 <;>
    rcases getPixel_le_one data width x (y + 5) with h5 | h5 <;>
    rcases getPixel_le_one data width x (y + 6) with h6 | h6 <;>
    rcases getPixel_le_one data width x (y + 7) with h7 | h7 <;>
    simp only [packByte, h0, h1, h2, h3, h4, h5, h6, h7] <;> decide

/-- Claim C7: pulse defaults its parameters to 0, 200 and 200; the on and
off times are divided by 10, rounded to nearest, and capped at 127 (a
ceiling cap, not wraparound, so 2000 yields 127); the trailing selector
byte is 0x07 for device 0 and 0x1a for any nonzero device. -/
theorem pulse_clamp :
    (pulse none none none = pulse (some 0) (some 200) (some 200) ∧
     pulse none none none = [0x1b, 0x07, 20, 20, 0x07]) ∧
    pulse (some 0) (some 2000) (some 2000) = [0x1b, 0x07, 127, 127, 0x07] ∧
    (∀ device onT offT, 0 ≤ onT → 0 ≤ offT →
        pulse (some device) (some onT) (some offT) =
          [0x1b, 0x07, min 127 ((onT + 5).fdiv 10),
           min 127 ((offT + 5).fdiv 10),
           if device = 0 then 0x07 else 0x1a]) := by
  refine ⟨⟨by decide, by decide⟩, by decide, ?_⟩
  intro device onT offT h1 h2
  simp only [pulse, Option.getD_some]
  rw [emod_min127 _ (Int.fdiv_nonneg (by omega) (by norm_num)),
      emod_min127 _ (Int.fdiv_nonneg (by omega) (by norm_num))]

/-- Witness for claim C7: device 1 with on 30 and off 44 gives timing
bytes 3 and 4 and the nonzero-device selector. -/
theorem pulse_clamp_witness :
    pulse (some 1) (some 30) (some 44) = [0x1b, 0x07, 3, 4, 0x1a] :=
  pulse_clamp.2.2 1 30 44 (by decide) (by decide)

end StarPrnt
